import Mathlib

/-!
Verification of `solara/hooks/use_thread.py` (the `use_thread` hook).

Two shallow embeddings of the same source are developed:

* Model A (`runner_trace` and friends): the body of `runner` (lines 119-159),
  executed by one thread, as the list of externally visible actions it performs
  on the shared cells (`result.current`, `error.current`, the task state) and
  on the collaborators (`updater()`, `logger.exception`).  The outcomes of the
  two authority checks (`threading.current_thread() == running_thread.current`)
  and of `cancel.is_set()` at cleanup are parameters, since other threads may
  change them concurrently.

* Model B (`nextB` and friends): a small-step interleaving semantics of the
  whole of `runner` (lines 89-159) together with the environment actions that
  the rest of the module can perform: `run()` spawning a new runner thread
  after writing STARTING (lines 86-163), and `cancel.set()` (the observer's
  `cancel()` at line 171 or the effect cleanup at line 166).  Each Python
  statement of `runner` is one atomic step: in particular the authority checks
  at lines 137, 142, 146 and 155 are separate steps from the state writes at
  lines 138, 143, 148 and 159 that follow them, and the pointer clear at line
  156 is its own step, so a thread can be superseded between a check and the
  write it guards.  Only the `with lock:` block (lines 91-97) is one atomic
  step — it is the source's only lock-protected region.  Statements with no
  effect on the modelled shared state (the `logger` calls at lines 147 and
  157) are absorbed into the adjacent statement of the same thread.  The
  cooperative-cancellation monitor is the
  `abort` label: it may fire at exactly the statements that run under
  `cancel_guard()` (lines 125-126 and 130-132) when the thread's cancel flag is
  set and `intrusive_cancel` is true; firing raises `CancelledError`, which the
  handler at lines 150-153 turns into a silent fall-through to the `finally`.
-/

namespace SolaraUseThread

/-- Task lifecycle states consumed from `solara.datatypes.ResultState`
(the seven states of the task state machine; `use_thread.py` uses exactly
these constructors). -/
inductive ResultState
  | INITIAL
  | STARTING
  | WAITING
  | RUNNING
  | FINISHED
  | ERROR
  | CANCELLED
  deriving DecidableEq, BEq, Repr

/-- Shape of the user work passed to `use_thread`: either a single-shot
callback returning a value (`single (.ok v)`) or raising an ordinary exception
(`single (.error e)`), or a callback whose call returns a generator
(`inspect.isgenerator(value)` at line 127) that yields `items` and then either
exhausts with `StopIteration` (`fin = none`) or raises an ordinary exception
(`fin = some e`).  Values and exception payloads are modelled as naturals. -/
inductive CallRes
  | ok (v : Nat)
  | raises (e : Nat)
  deriving DecidableEq, BEq, Repr

inductive Work
  | single (r : CallRes)
  | gen (items : List Nat) (fin : Option Nat)
  deriving DecidableEq, BEq, Repr

/-- Externally visible actions of one execution of `runner`'s body. -/
inductive Act
  | setValue (v : Nat)         -- `result.current = ...` (lines 131, 140)
  | clearError                 -- `error.current = None` (lines 132, 141)
  | setError (e : Nat)         -- `error.current = e` (line 145)
  | setState (s : ResultState) -- `set_result_state(...)`
  | update                     -- `updater()` (line 136)
  | logError (e : Nat)         -- `logger.exception(e)` (line 147)
  | clearPointer               -- `running_thread.current = None` (line 156)
  deriving DecidableEq, BEq, Repr

/-- The observable shared cells: `result.current`, `error.current` and the
task state, as returned to the caller at line 171. -/
structure CellState where
  value : Option Nat
  error : Option Nat
  state : ResultState
  deriving DecidableEq, Repr

def applyAct (c : CellState) : Act → CellState
  | .setValue v => { c with value := some v }
  | .clearError => { c with error := none }
  | .setError e => { c with error := some e }
  | .setState s => { c with state := s }
  | .update => c
  | .logError _ => c
  | .clearPointer => c

def applyTrace (c : CellState) (l : List Act) : CellState :=
  l.foldl applyAct c

/-- Actions of the single-shot branch (lines 139-148): on success write the
value, clear the error and, if the authority check at line 142 succeeds, set
FINISHED; on an ordinary exception write the error and, if the authority check
at line 146 succeeds, log it and set ERROR. -/
def trySingle (auth : Bool) : CallRes → List Act
  | .ok v => .setValue v :: .clearError ::
      (if auth then [.setState .FINISHED] else [])
  | .raises e => .setError e ::
      (if auth then [.logError e, .setState .ERROR] else [])

/-- Actions of the generator loop (lines 127-138) when the monitor never
fires: each produced item writes the value, clears the error and issues
`updater()`; exhaustion (`StopIteration`, line 133) breaks out and, if the
authority check at line 137 succeeds, sets FINISHED; an ordinary exception
from the producer escapes to the handler at line 144 which writes the error
and, if authoritative, logs it and sets ERROR. -/
def genLoop (auth : Bool) : List Nat → Option Nat → List Act
  | [], none => if auth then [.setState .FINISHED] else []
  | [], some e => .setError e ::
      (if auth then [.logError e, .setState .ERROR] else [])
  | v :: rest, fin => .setValue v :: .clearError :: .update :: genLoop auth rest fin

/-- Generator loop with an abort schedule: `some (k, b)` means the monitor
raises `CancelledError` at the pull of the `k`-th remaining item; `b = true`
means the raise lands between the assignment `result.current = next(value)`
(line 131) and `error.current = None` (line 132), both of which run under
`cancel_guard()`.  Returns the performed actions and whether the run was
aborted. -/
def genRunMon (auth : Bool) : List Nat → Option Nat → Option (Nat × Bool) → List Act × Bool
  | items, fin, none => (genLoop auth items fin, false)
  | [], _, some (0, _) => ([], true)
  | [], fin, some (_ + 1, _) => (genLoop auth [] fin, false)
  | _ :: _, _, some (0, false) => ([], true)
  | v :: _, _, some (0, true) => ([.setValue v], true)
  | v :: rest, fin, some (k + 1, b) =>
      let r := genRunMon auth rest fin (some (k, b))
      (.setValue v :: .clearError :: .update :: r.1, r.2)

/-- The inner `try` (lines 119-153) under the monitor.  The abort schedule
`ab = some (0, _)` means `CancelledError` is raised during the call
`value = f()` itself (lines 125-126); `some (k + 1, b)` means it is raised at
the pull of the `k`-th item of a generator.  A raised `CancelledError` reaches
the handler at lines 150-153 (`pass`), so an aborted run performs no further
actions.  Returns the performed actions and whether the run was aborted. -/
def tryBody (auth : Bool) (work : Work) (ab : Option (Nat × Bool)) : List Act × Bool :=
  match work, ab with
  | _, some (0, _) => ([], true)
  | .single r, _ => (trySingle auth r, false)
  | .gen items fin, none => genRunMon auth items fin none
  | .gen items fin, some (k + 1, b) => genRunMon auth items fin (some (k, b))

/-- The `finally` block (lines 154-159): if the thread still equals
`running_thread.current` (outcome `authClean`), clear the pointer and, if
`cancel.is_set()` (outcome `flagClean`), set CANCELLED. -/
def cleanupActs (authClean flagClean : Bool) : List Act :=
  if authClean then
    .clearPointer :: (if flagClean then [.setState .CANCELLED] else [])
  else []

/-- Whether `cancel_guard` (lines 53-84) installs the trace hook: with
`intrusive_cancel = False` it yields immediately (lines 55-57) and never calls
`sys.settrace`. -/
def cancelGuardInstallsHook (intrusive : Bool) : Bool := intrusive

/-- The full body of `runner` from line 119 on, as performed actions:
the inner `try` under the monitor (the monitor only exists when
`intrusive_cancel` is true, lines 55-57), followed by the `finally` cleanup.
`authFin` is the outcome of the authority check at the FINISHED/ERROR write,
`authClean` and `flagClean` the outcomes of the checks in the `finally`. -/
def runner_trace (intrusive : Bool) (work : Work) (ab : Option (Nat × Bool))
    (authFin authClean flagClean : Bool) : List Act :=
  (tryBody authFin work (if intrusive then ab else none)).1
    ++ cleanupActs authClean flagClean

/-- Whether the monitor aborted the run described by the same parameters. -/
def runnerAborted (intrusive : Bool) (work : Work) (ab : Option (Nat × Bool))
    (authFin : Bool) : Bool :=
  (tryBody authFin work (if intrusive then ab else none)).2

/-! ### The Python exception classes (lines 20-23 and 144-153) -/

/-- Exception classes relevant to `runner`: `CancelledError` is declared
`class CancelledError(BaseException)` (lines 20-23) precisely so that it is
*not* a subclass of `Exception`. -/
inductive PyClass
  | baseException
  | exceptionCls
  | stopIteration
  | cancelledError
  deriving DecidableEq, BEq, Repr

/-- Superclass chain of each class: Python's `Exception` and `StopIteration`
hierarchy plus the module's `CancelledError(BaseException)`. -/
def ancestors : PyClass → List PyClass
  | .baseException => [.baseException]
  | .exceptionCls => [.exceptionCls, .baseException]
  | .stopIteration => [.stopIteration, .exceptionCls, .baseException]
  | .cancelledError => [.cancelledError, .baseException]

def isSubclassOf (c d : PyClass) : Bool := (ancestors c).contains d

/-- Which handler of the `try` at lines 119-153 catches a raised exception of
a given class: the clause order is `except Exception` (line 144) before
`except CancelledError` (line 150). -/
inductive Handler
  | userError
  | cancelled
  deriving DecidableEq, BEq, Repr

def handlerFor (c : PyClass) : Option Handler :=
  if isSubclassOf c .exceptionCls then some .userError
  else if isSubclassOf c .cancelledError then some .cancelled
  else none

/-! ### The trace function (lines 59-70) -/

/-- Whether one invocation of `tracefunc` raises `CancelledError`:
`cancel.is_set()` is `cancelSet`; `rc` is the result of
`reacton.core._get_render_context(required=False)` abstracted to
`none` (no context) or `some isRendering` (a context whose `_is_rendering`
is `isRendering`). -/
def tracefuncRaises (cancelSet : Bool) (rc : Option Bool) : Bool :=
  cancelSet && (match rc with
    | none => true
    | some isRendering => !isRendering)

/-! ### Model B: interleaving semantics of `runner` (lines 86-163)

Thread identifiers are indices into the list of threads spawned so far; the
`n`-th `run()` spawns thread `n`.  Each spawned thread carries its own cancel
flag because the memoization keys of the cancel event (line 51) and of the
side effect that calls `run()` (line 170) are the same dependency list plus
retry counter, so every new `run()` comes with a fresh `threading.Event`.
The environment label `setFlag t` over-approximates the two ways thread `t`'s
flag can be set: the observer calling `cancel()` (line 171) and the effect
cleanup (line 166) that runs when the effect is superseded or torn down. -/

abbrev Tid := Nat

/-- Program counter of a spawned `runner` thread; remaining generator items
and other locals are folded into the constructor arguments. -/
inductive Pc
  | prologue                                     -- lines 90-97 (with lock)
  | setWaiting (p : Tid)                         -- line 99
  | joinPred (p : Tid)                           -- lines 100-104
  | checkAfter                                   -- lines 105-108
  | setRunning                                   -- line 112
  | callF                                        -- lines 114-126 (guarded call)
  | writeValue (v : Nat)                         -- line 140
  | clearErr                                     -- line 141
  | checkFinish                                  -- line 142 (check only)
  | genPull (items : List Nat) (fin : Option Nat)   -- lines 130-131 (guarded)
  | genClear (items : List Nat) (fin : Option Nat)  -- line 132 (guarded)
  | genNotify (items : List Nat) (fin : Option Nat) -- line 136
  | genFinish                                    -- line 137 (check only)
  | setFinished                                  -- line 138 or 143 (the write)
  | excSetError (e : Nat)                        -- line 145
  | excCheck (e : Nat)                           -- line 146 (check only)
  | setStateError                                -- lines 147-148 (log + write)
  | cleanup                                      -- line 155 (finally: check only)
  | clearPtr                                     -- lines 156-157 (pointer clear)
  | checkFlag                                    -- line 158 (flag check)
  | setCancelled                                 -- line 159 (the write)
  | done
  deriving DecidableEq, BEq, Repr

/-- One spawned thread: its program counter, its work, its lineage's cancel
flag, and a ghost bit recording that it has executed the `finally` body
(whose first statement is the authority check at line 155). -/
structure ThreadSt where
  pc : Pc
  work : Work
  flag : Bool
  cleaned : Bool
  deriving DecidableEq, BEq, Repr

/-- Global configuration: the shared cells of `use_thread` (`result_state`,
`result.current`, `error.current`, `running_thread.current`) and the threads
spawned so far. -/
structure Config where
  state : ResultState
  value : Option Nat
  error : Option Nat
  pointer : Option Tid
  threads : List ThreadSt
  deriving DecidableEq, BEq, Repr

def initConfig : Config :=
  { state := .INITIAL, value := none, error := none, pointer := none, threads := [] }

/-- Scheduler/environment labels: `spawn` is `run()` (write STARTING, start a
new runner thread, lines 86-163); `setFlag` is `cancel.set()`;
`step t` lets thread `t` execute its next statement; `abort t` lets the
monitor raise `CancelledError` in thread `t` at a statement running under
`cancel_guard()`. -/
inductive Label
  | spawn (w : Work)
  | setFlag (t : Tid)
  | step (t : Tid)
  | abort (t : Tid)
  deriving DecidableEq, BEq, Repr

/-- The statements that execute under `cancel_guard()` (lines 125-126 and
130-132): only there can the monitor's `CancelledError` land. -/
def guardedPc : Pc → Bool
  | .callF => true
  | .genPull _ _ => true
  | .genClear _ _ => true
  | _ => false

def setThread (c : Config) (t : Tid) (th : ThreadSt) : Config :=
  { c with threads := c.threads.set t th }

/-- One statement of thread `t` (currently `th`, found at its pc).  Blocking:
`joinPred p` is enabled only once thread `p` is done.  `none` means no step is
possible (terminated, or join still blocked). -/
def stepThread (c : Config) (t : Tid) (th : ThreadSt) : Option Config :=
  match th.pc with
  | .prologue =>
      -- lines 91-97: under the lock, read the current pointer into
      -- wait_for_thread and make ourselves the current thread.
      match c.pointer with
      | none => some { setThread c t { th with pc := .setRunning } with pointer := some t }
      | some p => some { setThread c t { th with pc := .setWaiting p } with pointer := some t }
  | .setWaiting p =>
      -- line 99
      some { setThread c t { th with pc := .joinPred p } with state := .WAITING }
  | .joinPred p =>
      -- lines 100-104: join the predecessor (exceptions from join are
      -- swallowed); enabled only once the predecessor has terminated.
      match c.threads[p]? with
      | none => none
      | some thp => if thp.pc = .done
          then some (setThread c t { th with pc := .checkAfter })
          else none
  | .checkAfter =>
      -- lines 105-108: if a newer thread took over while we waited, return
      -- immediately — note this return does NOT pass through the finally at
      -- line 154, which guards only the try started at line 119.
      if c.pointer = some t
        then some (setThread c t { th with pc := .setRunning })
        else some (setThread c t { th with pc := .done })
  | .setRunning =>
      -- line 112 (unguarded state write)
      some { setThread c t { th with pc := .callF } with state := .RUNNING }
  | .callF =>
      -- lines 114-126: call f() under the guard; the shape of the result
      -- decides the branch at line 127.
      match th.work with
      | .single (.ok v) => some (setThread c t { th with pc := .writeValue v })
      | .single (.raises e) => some (setThread c t { th with pc := .excSetError e })
      | .gen items fin => some (setThread c t { th with pc := .genPull items fin })
  | .writeValue v =>
      -- line 140 (unguarded result write)
      some { setThread c t { th with pc := .clearErr } with value := some v }
  | .clearErr =>
      -- line 141 (unguarded error write)
      some { setThread c t { th with pc := .checkFinish } with error := none }
  | .checkFinish =>
      -- line 142: the authority check alone; the write at line 143 is the
      -- separate statement `setFinished`, so the thread can be superseded
      -- between the check and the write
      if c.pointer = some t
        then some (setThread c t { th with pc := .setFinished })
        else some (setThread c t { th with pc := .cleanup })
  | .genPull items fin =>
      match items, fin with
      | v :: rest, _ =>
          -- line 131: result.current = next(value) (unguarded result write)
          some { setThread c t { th with pc := .genClear rest fin } with value := some v }
      | [], none =>
          -- line 133: StopIteration breaks the loop
          some (setThread c t { th with pc := .genFinish })
      | [], some e =>
          -- exhausted producer raises an ordinary exception instead
          some (setThread c t { th with pc := .excSetError e })
  | .genClear items fin =>
      -- line 132 (unguarded error write)
      some { setThread c t { th with pc := .genNotify items fin } with error := none }
  | .genNotify items fin =>
      -- line 136: updater() — no shared-cell effect
      some (setThread c t { th with pc := .genPull items fin })
  | .genFinish =>
      -- line 137: the authority check alone, as for `checkFinish`
      if c.pointer = some t
        then some (setThread c t { th with pc := .setFinished })
        else some (setThread c t { th with pc := .cleanup })
  | .setFinished =>
      -- line 138 or 143: set_result_state(FINISHED) — unconditional by now;
      -- the pointer may already have moved to a successor
      some { setThread c t { th with pc := .cleanup } with state := .FINISHED }
  | .excSetError e =>
      -- line 145 (unguarded error write)
      some { setThread c t { th with pc := .excCheck e } with error := some e }
  | .excCheck _ =>
      -- line 146: the authority check alone; the return at line 149 still
      -- passes through the finally
      if c.pointer = some t
        then some (setThread c t { th with pc := .setStateError })
        else some (setThread c t { th with pc := .cleanup })
  | .setStateError =>
      -- lines 147-148: logger.exception(e) (no shared effect, absorbed) and
      -- set_result_state(ERROR) — unconditional by now
      some { setThread c t { th with pc := .cleanup } with state := .ERROR }
  | .cleanup =>
      -- line 155: the finally body's authority check; the ghost bit records
      -- that the finally ran
      if c.pointer = some t
        then some (setThread c t { th with pc := .clearPtr, cleaned := true })
        else some (setThread c t { th with pc := .done, cleaned := true })
  | .clearPtr =>
      -- lines 156-157: running_thread.current = None (the logger.info call
      -- has no shared effect and is absorbed) — unconditional: if a successor
      -- took the pointer since the line-155 check, this clears it anyway
      some { setThread c t { th with pc := .checkFlag } with pointer := none }
  | .checkFlag =>
      -- line 158: if cancel.is_set()
      if th.flag
        then some (setThread c t { th with pc := .setCancelled })
        else some (setThread c t { th with pc := .done })
  | .setCancelled =>
      -- line 159: set_result_state(CANCELLED)
      some { setThread c t { th with pc := .done } with state := .CANCELLED }
  | .done => none

/-- The labelled small-step transition function; `intr` is the hook's
`intrusive_cancel` argument, fixed for all spawns of one hook instance. -/
def nextB (intr : Bool) (c : Config) : Label → Option Config
  | .spawn w =>
      -- lines 86-87 and 161-163: run() writes STARTING and starts the thread
      some { c with state := .STARTING,
                    threads := c.threads ++ [⟨.prologue, w, false, false⟩] }
  | .setFlag t =>
      match c.threads[t]? with
      | none => none
      | some th => some (setThread c t { th with flag := true })
  | .step t =>
      match c.threads[t]? with
      | none => none
      | some th => stepThread c t th
  | .abort t =>
      -- the monitor (lines 59-84) raises CancelledError inside a guarded
      -- statement; it can fire only when the hook is intrusive and the flag
      -- is set.  The raise reaches the handler at lines 150-153 (pass) and
      -- falls through to the finally.
      match c.threads[t]? with
      | none => none
      | some th =>
          if intr && th.flag && guardedPc th.pc
            then some (setThread c t { th with pc := .cleanup })
            else none

/-- Run a list of labels from a configuration. -/
def runB (intr : Bool) (c : Config) : List Label → Option Config
  | [] => some c
  | l :: ls =>
      match nextB intr c l with
      | none => none
      | some c2 => runB intr c2 ls

/-- The actions performed for one produced item of a lazy sequence
(lines 131, 132, 136). -/
def itemActs (v : Nat) : List Act := [.setValue v, .clearError, .update]

/-- Actions that record or report an error: writing `error.current`, logging,
or transitioning to the ERROR state. -/
def isErrorAct : Act → Bool
  | .setError _ => true
  | .logError _ => true
  | .setState .ERROR => true
  | _ => false

/-- All spawned threads have terminated. -/
def allDone (c : Config) : Bool := c.threads.all fun th => decide (th.pc = .done)

/-- Labels that do not start a new `run()`. -/
def noSpawn : Label → Bool
  | .spawn _ => false
  | _ => true

/-! ## Helper lemmas -/

theorem applyTrace_append (c : CellState) (xs ys : List Act) :
    applyTrace c (xs ++ ys) = applyTrace (applyTrace c xs) ys :=
  List.foldl_append applyAct c xs ys

theorem getLast?_getD_cons (w v : Nat) (rs : List Nat) :
    (w :: rs).getLast?.getD v = rs.getLast?.getD w := by
  cases rs with
  | nil => simp
  | cons a l =>
      rw [List.getLast?_cons_cons]
      obtain ⟨x, hx⟩ : ∃ x, (a :: l).getLast? = some x := by
        have h1 : (a :: l).getLast?.isSome := List.getLast?_isSome.mpr (by simp)
        exact Option.isSome_iff_exists.mp h1
      rw [hx]
      rfl

theorem applyTrace_items (v : Nat) (rest : List Nat) (c : CellState) :
    applyTrace c ((v :: rest).flatMap itemActs)
      = { c with value := some (rest.getLast?.getD v), error := none } := by
  induction rest generalizing v c with
  | nil => rfl
  | cons w rs ih =>
      rw [List.flatMap_cons, applyTrace_append]
      have h1 : applyTrace c (itemActs v) = { c with value := some v, error := none } := rfl
      rw [h1, ih, getLast?_getD_cons]

theorem genLoop_none_eq (auth : Bool) (items : List Nat) :
    genLoop auth items none
      = items.flatMap itemActs ++ (if auth then [Act.setState .FINISHED] else []) := by
  induction items with
  | nil => simp [genLoop]
  | cons v rest ih => simp [genLoop, ih, itemActs]

theorem genLoop_some_eq (auth : Bool) (items : List Nat) (e : Nat) :
    genLoop auth items (some e)
      = items.flatMap itemActs
          ++ (Act.setError e :: (if auth then [Act.logError e, Act.setState .ERROR] else [])) := by
  induction items with
  | nil => simp [genLoop]
  | cons v rest ih => simp [genLoop, ih, itemActs]

theorem genRunMon_aborted_no_error (auth : Bool) :
    ∀ (items : List Nat) (fin : Option Nat) (ab : Option (Nat × Bool)),
      (genRunMon auth items fin ab).2 = true →
      ((genRunMon auth items fin ab).1.all fun a => !isErrorAct a) = true := by
  intro items
  induction items with
  | nil =>
      intro fin ab h
      match ab with
      | none => simp [genRunMon] at h
      | some (0, b) => simp [genRunMon]
      | some (k + 1, b) => simp [genRunMon] at h
  | cons v rest ih =>
      intro fin ab h
      match ab with
      | none => simp [genRunMon] at h
      | some (0, false) => simp [genRunMon]
      | some (0, true) => simp [genRunMon, isErrorAct]
      | some (k + 1, b) =>
          simp only [genRunMon] at h ⊢
          simpa [isErrorAct] using ih fin (some (k, b)) h

theorem cleanupActs_no_error (aC fC : Bool) :
    ((cleanupActs aC fC).all fun a => !isErrorAct a) = true := by
  cases aC <;> cases fC <;> rfl

theorem tryBody_aborted_no_error (auth : Bool) (work : Work) (ab : Option (Nat × Bool)) :
    (tryBody auth work ab).2 = true →
    ((tryBody auth work ab).1.all fun a => !isErrorAct a) = true := by
  intro h
  match work, ab with
  | _, some (0, b) => simp [tryBody]
  | .single r, none => simp [tryBody] at h
  | .single r, some (k + 1, b) => simp [tryBody] at h
  | .gen items fin, none =>
      exact genRunMon_aborted_no_error auth items fin none (by simpa [tryBody] using h)
  | .gen items fin, some (k + 1, b) =>
      exact genRunMon_aborted_no_error auth items fin (some (k, b)) (by simpa [tryBody] using h)

/-! ## Claim theorems -/

/-- C7: on each traced execution step, `tracefunc` raises the abort signal if
and only if the cancellation flag is set and either no render context is
available or no render pass is currently active on it; a set flag with an
active render pass is suppressed for that step. -/
theorem c7_tracefunc_raise_condition :
    ∀ (cancelSet : Bool) (rc : Option Bool),
      (tracefuncRaises cancelSet rc = true ↔
        cancelSet = true ∧ (rc = none ∨ rc = some false)) := by
  decide

/-- C5: single-shot publication.  On success the result cell becomes
`(value, error = none)`; on an ordinary exception the error is set and the
value left unchanged; if the executing thread is still authoritative, the
state becomes FINISHED resp. ERROR, and on ERROR the exception is logged
(the `logError` action precedes the ERROR transition in the performed trace);
if it is not authoritative, no state transition is performed. -/
theorem c5_single_shot_publication :
    ∀ (intrusive authClean : Bool) (v e : Nat) (c : CellState),
      runner_trace intrusive (.single (.ok v)) none true authClean false
        = [Act.setValue v, Act.clearError, Act.setState .FINISHED]
            ++ cleanupActs authClean false ∧
      runner_trace intrusive (.single (.raises e)) none true authClean false
        = [Act.setError e, Act.logError e, Act.setState .ERROR]
            ++ cleanupActs authClean false ∧
      applyTrace c (runner_trace intrusive (.single (.ok v)) none true authClean false)
        = { value := some v, error := none, state := .FINISHED } ∧
      applyTrace c (runner_trace intrusive (.single (.raises e)) none true authClean false)
        = { c with error := some e, state := .ERROR } ∧
      (applyTrace c (runner_trace intrusive (.single (.ok v)) none false authClean false)).state
        = c.state ∧
      (applyTrace c (runner_trace intrusive (.single (.raises e)) none false authClean false)).state
        = c.state := by
  intro intrusive authClean v e c
  cases intrusive <;> cases authClean <;> exact ⟨rfl, rfl, rfl, rfl, rfl, rfl⟩

/-- C6: lazy-sequence publication.  When the work returns a generator, every
produced item overwrites the result cell's value and clears its error, an
`updater()` notification is issued after every item, the items appear in the
performed trace in strict production order, and exhaustion with the thread
still authoritative transitions the state to FINISHED. -/
theorem c6_lazy_sequence_publication :
    ∀ (intrusive authClean : Bool) (items : List Nat) (c : CellState),
      runner_trace intrusive (.gen items none) none true authClean false
        = items.flatMap itemActs
            ++ ([Act.setState .FINISHED] ++ cleanupActs authClean false) ∧
      runner_trace intrusive (.gen items none) none false authClean false
        = items.flatMap itemActs ++ cleanupActs authClean false ∧
      (applyTrace c (runner_trace intrusive (.gen items none) none true authClean false)).state
        = .FINISHED := by
  intro intrusive authClean items c
  have htr : runner_trace intrusive (.gen items none) none true authClean false
      = items.flatMap itemActs ++ ([Act.setState .FINISHED] ++ cleanupActs authClean false) := by
    cases intrusive <;>
      simp [runner_trace, tryBody, genRunMon, genLoop_none_eq, cleanupActs]
  have htr2 : runner_trace intrusive (.gen items none) none false authClean false
      = items.flatMap itemActs ++ cleanupActs authClean false := by
    cases intrusive <;>
      simp [runner_trace, tryBody, genRunMon, genLoop_none_eq, cleanupActs]
  refine ⟨htr, htr2, ?_⟩
  rw [htr, applyTrace_append, applyTrace_append]
  cases authClean <;> rfl

/-- C10: if a lazy-sequence producer raises an ordinary exception after having
yielded some items, the result cell keeps the last yielded item as its value,
the error is set to that exception, the state becomes ERROR only if the thread
is still authoritative, and no `updater()` notification is issued at or after
the error write. -/
theorem c10_generator_error_after_items :
    ∀ (intrusive authClean : Bool) (v e : Nat) (rest : List Nat) (c : CellState),
      runner_trace intrusive (.gen (v :: rest) (some e)) none true authClean false
        = (v :: rest).flatMap itemActs
            ++ ([Act.setError e, Act.logError e, Act.setState .ERROR]
                  ++ cleanupActs authClean false) ∧
      applyTrace c (runner_trace intrusive (.gen (v :: rest) (some e)) none true authClean false)
        = { value := some (rest.getLast?.getD v), error := some e, state := .ERROR } ∧
      (([Act.setError e, Act.logError e, Act.setState .ERROR]
          ++ cleanupActs authClean false).all fun a => !(a == Act.update)) = true ∧
      (applyTrace c
          (runner_trace intrusive (.gen (v :: rest) (some e)) none false authClean false)).state
        = c.state := by
  intro intrusive authClean v e rest c
  have htr : runner_trace intrusive (.gen (v :: rest) (some e)) none true authClean false
      = (v :: rest).flatMap itemActs
          ++ ([Act.setError e, Act.logError e, Act.setState .ERROR]
                ++ cleanupActs authClean false) := by
    cases intrusive <;>
      simp [runner_trace, tryBody, genRunMon, genLoop_some_eq, cleanupActs]
  have htr2 : runner_trace intrusive (.gen (v :: rest) (some e)) none false authClean false
      = (v :: rest).flatMap itemActs
          ++ ([Act.setError e] ++ cleanupActs authClean false) := by
    cases intrusive <;>
      simp [runner_trace, tryBody, genRunMon, genLoop_some_eq, cleanupActs]
  refine ⟨htr, ?_, ?_, ?_⟩
  · rw [htr, applyTrace_append, applyTrace_items]
    cases authClean <;> rfl
  · cases authClean <;> rfl
  · rw [htr2, applyTrace_append, applyTrace_items]
    cases authClean <;> rfl

/-- C9 (implicit): with `intrusive_cancel = False` the execution monitor
installs no step hook at all, the monitor can never abort a thread, the
performed trace is independent of any abort schedule (the work runs to its
natural completion or error), and a flag set during the run takes effect only
in the final cleanup, where the still-authoritative thread sets CANCELLED,
overwriting the FINISHED or ERROR just written. -/
theorem c9_non_intrusive_no_hook :
    cancelGuardInstallsHook false = false ∧
    (∀ (c : Config) (t : Tid), nextB false c (.abort t) = none) ∧
    (∀ (work : Work) (ab : Option (Nat × Bool)) (aF : Bool),
      runnerAborted false work ab aF = false) ∧
    (∀ (work : Work) (ab : Option (Nat × Bool)) (aF aC fC : Bool),
      runner_trace false work ab aF aC fC = runner_trace false work none aF aC fC) ∧
    (∀ (v e : Nat) (ab : Option (Nat × Bool)) (c : CellState),
      runner_trace false (.single (.ok v)) ab true true true
        = [Act.setValue v, Act.clearError, Act.setState .FINISHED,
           Act.clearPointer, Act.setState .CANCELLED] ∧
      runner_trace false (.single (.raises e)) ab true true true
        = [Act.setError e, Act.logError e, Act.setState .ERROR,
           Act.clearPointer, Act.setState .CANCELLED] ∧
      (applyTrace c (runner_trace false (.single (.ok v)) ab true true true)).state
        = .CANCELLED ∧
      (applyTrace c (runner_trace false (.single (.raises e)) ab true true true)).state
        = .CANCELLED) := by
  refine ⟨rfl, ?_, ?_, ?_, ?_⟩
  · intro c t
    cases h : c.threads[t]? <;> simp [nextB, h]
  · intro work ab aF
    cases work with
    | single r => rfl
    | gen items fin => cases items <;> cases fin <;> rfl
  · intro work ab aF aC fC
    rfl
  · intro v e ab c
    exact ⟨rfl, rfl, rfl, rfl⟩

/-- C4: the `CancelledError` raised by the execution monitor is always caught
and swallowed at the work-invocation boundary: whenever a run was aborted, its
performed trace contains no error write, no ERROR transition, and no error
logging; and `CancelledError`, being declared on `BaseException` rather than
`Exception`, is not caught by the `except Exception` handler but by the
dedicated `except CancelledError` handler. -/
theorem c4_cancellederror_swallowed :
    isSubclassOf .cancelledError .exceptionCls = false ∧
    isSubclassOf .cancelledError .baseException = true ∧
    handlerFor .cancelledError = some .cancelled ∧
    handlerFor .stopIteration = some .userError ∧
    (∀ (intrusive authFin authClean flagClean : Bool) (work : Work)
        (ab : Option (Nat × Bool)),
      runnerAborted intrusive work ab authFin = true →
      ((runner_trace intrusive work ab authFin authClean flagClean).all
          fun a => !isErrorAct a) = true) := by
  refine ⟨rfl, rfl, rfl, rfl, ?_⟩
  intro intrusive authFin authClean flagClean work ab h
  have h2 := tryBody_aborted_no_error authFin work (if intrusive then ab else none) h
  unfold runner_trace
  rw [List.all_append, h2, cleanupActs_no_error]
  rfl

/-- Witness for C4: a concrete aborted run — the monitor fires during the
pull of the first item of a generator — whose trace indeed records no error. -/
theorem c4_cancellederror_swallowed_witness :
    runnerAborted true (.gen [5] none) (some (1, true)) true = true ∧
    ((runner_trace true (.gen [5] none) (some (1, true)) true true false).all
        fun a => !isErrorAct a) = true :=
  ⟨by decide,
   c4_cancellederror_swallowed.2.2.2.2 true true true false (.gen [5] none)
     (some (1, true)) (by decide)⟩

/-! ## Structural helper lemmas for Model B -/

theorem getElem?_set_self {α : Type} (l : List α) (t : Nat) (a : α)
    (h : t < l.length) : (l.set t a)[t]? = some a := by
  simp [List.getElem?_set, h]

theorem getElem?_set_other {α : Type} (l : List α) (u t : Nat) (a : α)
    (hne : u ≠ t) : (l.set u a)[t]? = l[t]? := by
  simp [List.getElem?_set, hne]

/-- Every statement of thread `t` rewrites the thread list only at index
`t`. -/
theorem stepThread_set (c : Config) (t : Tid) (th : ThreadSt) (c2 : Config)
    (h : stepThread c t th = some c2) :
    ∃ a, c2.threads = c.threads.set t a := by
  obtain ⟨pc, wk, fl, cl⟩ := th
  cases pc <;> simp only [stepThread] at h <;>
    (try split at h) <;> (try split at h) <;>
    first
      | (simp only [Option.some.injEq] at h; subst h; exact ⟨_, rfl⟩)
      | simp at h

/-- How a thread's own statement can move its pc into one of the
state-writing pcs or into `done`: each such entry requires the preceding
check to have passed at the moment of the check (lines 137, 142, 146, 155,
158), and `done` is entered only from the finally's exits or from the
superseded-while-waiting early return at line 108. -/
theorem stepThread_entry (c : Config) (t : Tid) (th th2 : ThreadSt) (c2 : Config)
    (h : stepThread c t th = some c2)
    (hth : c.threads[t]? = some th)
    (h2 : c2.threads[t]? = some th2) :
    (th2.pc = .setFinished →
      (th.pc = .checkFinish ∨ th.pc = .genFinish) ∧ c.pointer = some t) ∧
    (th2.pc = .setStateError →
      (∃ e, th.pc = .excCheck e) ∧ c.pointer = some t) ∧
    (th2.pc = .setCancelled → th.pc = .checkFlag ∧ th.flag = true) ∧
    (th2.pc = .checkFlag → th.pc = .clearPtr) ∧
    (th2.pc = .clearPtr → th.pc = .cleanup ∧ c.pointer = some t) ∧
    (th2.pc = .done →
      th.pc = .checkAfter ∨ th.pc = .cleanup ∨ th.pc = .checkFlag ∨
        th.pc = .setCancelled) := by
  have hlen : t < c.threads.length := (List.getElem?_eq_some.mp hth).1
  obtain ⟨pc, wk, fl, cl⟩ := th
  cases pc <;> simp only [stepThread] at h <;>
    (try split at h) <;> (try split at h) <;>
    first
      | (simp only [Option.some.injEq] at h; subst h
         simp only [setThread, getElem?_set_self _ _ _ hlen,
           Option.some.injEq] at h2
         subst h2
         refine ⟨?_, ?_, ?_, ?_, ?_, ?_⟩ <;> intro hx <;> (try cases hx) <;>
           first
             | exact ⟨Or.inl rfl, by assumption⟩
             | exact ⟨Or.inr rfl, by assumption⟩
             | exact ⟨⟨_, rfl⟩, by assumption⟩
             | exact ⟨rfl, by assumption⟩
             | exact rfl
             | exact Or.inl rfl
             | exact Or.inr (Or.inl rfl)
             | exact Or.inr (Or.inr (Or.inl rfl))
             | exact Or.inr (Or.inr (Or.inr rfl)))
      | simp at h

/-- A thread's pc changes only through its own statement or its own abort
(which sends it to the finally): spawning, flag sets and other threads'
statements leave it alone. -/
theorem pc_change_label (intr : Bool) (c : Config) (l : Label) (c2 : Config)
    (t : Tid) (th th2 : ThreadSt)
    (h : nextB intr c l = some c2)
    (hth : c.threads[t]? = some th) (hth2 : c2.threads[t]? = some th2)
    (hne : th2.pc ≠ th.pc) :
    (l = .step t ∧ stepThread c t th = some c2) ∨
    (l = .abort t ∧ th2.pc = .cleanup) := by
  have hlen : t < c.threads.length := (List.getElem?_eq_some.mp hth).1
  cases l with
  | spawn w =>
      exfalso
      simp only [nextB, Option.some.injEq] at h
      subst h
      dsimp only at hth2
      rw [List.getElem?_append, if_pos hlen, hth, Option.some.injEq] at hth2
      exact hne (by rw [← hth2])
  | setFlag u =>
      exfalso
      simp only [nextB] at h
      cases hq : c.threads[u]? with
      | none => rw [hq] at h; exact absurd h (by simp)
      | some thu =>
          rw [hq] at h
          simp only [Option.some.injEq] at h
          subst h
          by_cases hu : u = t
          · subst hu
            rw [hq] at hth
            simp only [Option.some.injEq] at hth
            subst hth
            rw [show (setThread c u { thu with flag := true }).threads[u]?
                  = some { thu with flag := true } from
                getElem?_set_self _ _ _ hlen, Option.some.injEq] at hth2
            exact hne (by rw [← hth2])
          · rw [show (setThread c u { thu with flag := true }).threads[t]?
                  = c.threads[t]? from getElem?_set_other _ _ _ _ hu,
                hth, Option.some.injEq] at hth2
            exact hne (by rw [← hth2])
  | step u =>
      by_cases hu : u = t
      · subst hu
        left
        refine ⟨rfl, ?_⟩
        simpa [nextB, hth] using h
      · exfalso
        simp only [nextB] at h
        cases hq : c.threads[u]? with
        | none => rw [hq] at h; exact absurd h (by simp)
        | some thu =>
            rw [hq] at h
            obtain ⟨a, ha⟩ := stepThread_set c u thu c2 h
            rw [show c2.threads[t]? = c.threads[t]? from by
                  rw [ha]; exact getElem?_set_other _ _ _ _ hu,
                hth, Option.some.injEq] at hth2
            exact hne (by rw [← hth2])
  | abort u =>
      simp only [nextB] at h
      cases hq : c.threads[u]? with
      | none => rw [hq] at h; exact absurd h (by simp)
      | some thu =>
          rw [hq] at h
          dsimp only at h
          by_cases hcond : (intr && thu.flag && guardedPc thu.pc) = true
          · rw [if_pos hcond] at h
            simp only [Option.some.injEq] at h
            subst h
            by_cases hu : u = t
            · subst hu
              right
              refine ⟨rfl, ?_⟩
              rw [show (setThread c u { thu with pc := .cleanup }).threads[u]?
                    = some { thu with pc := .cleanup } from
                  getElem?_set_self _ _ _ hlen, Option.some.injEq] at hth2
              rw [← hth2]
            · exfalso
              rw [show (setThread c u { thu with pc := .cleanup }).threads[t]?
                    = c.threads[t]? from getElem?_set_other _ _ _ _ hu,
                  hth, Option.some.injEq] at hth2
              exact hne (by rw [← hth2])
          · rw [if_neg hcond] at h
            exact absurd h (by simp)

/-- Every change of the task state into FINISHED, ERROR or CANCELLED is made
by the dedicated write statement of some thread (lines 138/143, 148, 159). -/
theorem state_write_pcs (intr : Bool) (c : Config) (l : Label) (c2 : Config)
    (h : nextB intr c l = some c2)
    (hs : c2.state = .FINISHED ∨ c2.state = .ERROR ∨ c2.state = .CANCELLED)
    (hne : c2.state ≠ c.state) :
    ∃ t th, l = .step t ∧ c.threads[t]? = some th ∧
      ((c2.state = .FINISHED ∧ th.pc = .setFinished) ∨
       (c2.state = .ERROR ∧ th.pc = .setStateError) ∨
       (c2.state = .CANCELLED ∧ th.pc = .setCancelled)) := by
  cases l with
  | spawn w =>
      simp only [nextB, Option.some.injEq] at h
      subst h
      simp at hs
  | setFlag t =>
      simp only [nextB] at h
      cases hth : c.threads[t]? with
      | none => rw [hth] at h; exact absurd h (by simp)
      | some th =>
          rw [hth] at h
          simp only [Option.some.injEq] at h
          subst h
          exact absurd rfl hne
  | abort t =>
      simp only [nextB] at h
      cases hth : c.threads[t]? with
      | none => rw [hth] at h; exact absurd h (by simp)
      | some th =>
          rw [hth] at h
          dsimp only at h
          by_cases hcond : (intr && th.flag && guardedPc th.pc) = true
          · rw [if_pos hcond] at h
            simp only [Option.some.injEq] at h
            subst h
            exact absurd rfl hne
          · rw [if_neg hcond] at h
            exact absurd h (by simp)
  | step t =>
      simp only [nextB] at h
      cases hth : c.threads[t]? with
      | none => rw [hth] at h; exact absurd h (by simp)
      | some th =>
          rw [hth] at h
          obtain ⟨pc, wk, fl, cl⟩ := th
          cases pc with
          | prologue =>
              cases hp : c.pointer <;>
                simp only [stepThread, hp, Option.some.injEq] at h <;>
                subst h <;> exact absurd rfl hne
          | setWaiting p =>
              simp only [stepThread, Option.some.injEq] at h
              subst h
              simp [setThread] at hs
          | joinPred p =>
              cases hthp : c.threads[p]? with
              | none =>
                  simp only [stepThread, hthp] at h
                  exact absurd h (by simp)
              | some thp =>
                  simp only [stepThread, hthp] at h
                  by_cases hdone : thp.pc = .done
                  · rw [if_pos hdone] at h
                    simp only [Option.some.injEq] at h
                    subst h
                    exact absurd rfl hne
                  · rw [if_neg hdone] at h
                    exact absurd h (by simp)
          | checkAfter =>
              simp only [stepThread] at h
              by_cases hp : c.pointer = some t <;>
                [rw [if_pos hp] at h; rw [if_neg hp] at h] <;>
                simp only [Option.some.injEq] at h <;>
                subst h <;> exact absurd rfl hne
          | setRunning =>
              simp only [stepThread, Option.some.injEq] at h
              subst h
              simp [setThread] at hs
          | callF =>
              cases wk with
              | single r =>
                  cases r <;>
                    simp only [stepThread, Option.some.injEq] at h <;>
                    subst h <;> exact absurd rfl hne
              | gen items fin =>
                  simp only [stepThread, Option.some.injEq] at h
                  subst h
                  exact absurd rfl hne
          | writeValue v =>
              simp only [stepThread, Option.some.injEq] at h
              subst h
              exact absurd rfl hne
          | clearErr =>
              simp only [stepThread, Option.some.injEq] at h
              subst h
              exact absurd rfl hne
          | checkFinish =>
              simp only [stepThread] at h
              by_cases hp : c.pointer = some t <;>
                [rw [if_pos hp] at h; rw [if_neg hp] at h] <;>
                simp only [Option.some.injEq] at h <;>
                subst h <;> exact absurd rfl hne
          | genPull items fin =>
              cases items with
              | nil =>
                  cases fin <;>
                    simp only [stepThread, Option.some.injEq] at h <;>
                    subst h <;> exact absurd rfl hne
              | cons v rest =>
                  simp only [stepThread, Option.some.injEq] at h
                  subst h
                  exact absurd rfl hne
          | genClear items fin =>
              simp only [stepThread, Option.some.injEq] at h
              subst h
              exact absurd rfl hne
          | genNotify items fin =>
              simp only [stepThread, Option.some.injEq] at h
              subst h
              exact absurd rfl hne
          | genFinish =>
              simp only [stepThread] at h
              by_cases hp : c.pointer = some t <;>
                [rw [if_pos hp] at h; rw [if_neg hp] at h] <;>
                simp only [Option.some.injEq] at h <;>
                subst h <;> exact absurd rfl hne
          | setFinished =>
              simp only [stepThread, Option.some.injEq] at h
              subst h
              exact ⟨t, ⟨.setFinished, wk, fl, cl⟩, rfl, hth, Or.inl ⟨rfl, rfl⟩⟩
          | excSetError e =>
              simp only [stepThread, Option.some.injEq] at h
              subst h
              exact absurd rfl hne
          | excCheck e =>
              simp only [stepThread] at h
              by_cases hp : c.pointer = some t <;>
                [rw [if_pos hp] at h; rw [if_neg hp] at h] <;>
                simp only [Option.some.injEq] at h <;>
                subst h <;> exact absurd rfl hne
          | setStateError =>
              simp only [stepThread, Option.some.injEq] at h
              subst h
              exact ⟨t, ⟨.setStateError, wk, fl, cl⟩, rfl, hth,
                Or.inr (Or.inl ⟨rfl, rfl⟩)⟩
          | cleanup =>
              simp only [stepThread] at h
              by_cases hp : c.pointer = some t <;>
                [rw [if_pos hp] at h; rw [if_neg hp] at h] <;>
                simp only [Option.some.injEq] at h <;>
                subst h <;> exact absurd rfl hne
          | clearPtr =>
              simp only [stepThread, Option.some.injEq] at h
              subst h
              exact absurd rfl hne
          | checkFlag =>
              simp only [stepThread] at h
              by_cases hfl : fl = true <;>
                [rw [if_pos hfl] at h; rw [if_neg hfl] at h] <;>
                simp only [Option.some.injEq] at h <;>
                subst h <;> exact absurd rfl hne
          | setCancelled =>
              simp only [stepThread, Option.some.injEq] at h
              subst h
              exact ⟨t, ⟨.setCancelled, wk, fl, cl⟩, rfl, hth,
                Or.inr (Or.inr ⟨rfl, rfl⟩)⟩
          | done =>
              simp only [stepThread] at h
              exact absurd h (by simp)

/-! ## Model B counterexample interleavings

All interleavings below are realizable by the source with
`intrusive_cancel=False`: flags are set (by the effect cleanup at line 166)
before a superseding `run()` spawns, or by the observer's `cancel()`. -/

/-- Thread 0 starts running its single-shot work; before it reaches the
unguarded write `result.current = value` (line 140), a superseding `run()`
spawns thread 1, whose prologue takes over `running_thread.current`. -/
def c1Labels : List Label :=
  [.spawn (.single (.ok 42)), .step 0, .step 0, .step 0, .setFlag 0,
   .spawn (.single (.ok 7)), .step 1]

def c1Cfg : Config :=
  { state := .STARTING, value := none, error := none, pointer := some 1,
    threads := [⟨.writeValue 42, .single (.ok 42), true, false⟩,
                ⟨.setWaiting 0, .single (.ok 7), false, false⟩] }

def c1Cfg2 : Config :=
  { state := .STARTING, value := some 42, error := none, pointer := some 1,
    threads := [⟨.clearErr, .single (.ok 42), true, false⟩,
                ⟨.setWaiting 0, .single (.ok 7), false, false⟩] }

/-- Thread 0 passes the authority check at line 142 while still
authoritative; before it executes the write at line 143, thread 1's prologue
takes over the pointer (TOCTOU between check and write). -/
def c1tLabels : List Label :=
  [.spawn (.single (.ok 42)), .step 0, .step 0, .step 0, .step 0, .step 0,
   .step 0, .setFlag 0, .spawn (.single (.ok 7)), .step 1]

def c1tCfg : Config :=
  { state := .STARTING, value := some 42, error := none, pointer := some 1,
    threads := [⟨.setFinished, .single (.ok 42), true, false⟩,
                ⟨.setWaiting 0, .single (.ok 7), false, false⟩] }

def c1tCfg2 : Config :=
  { state := .FINISHED, value := some 42, error := none, pointer := some 1,
    threads := [⟨.cleanup, .single (.ok 42), true, false⟩,
                ⟨.setWaiting 0, .single (.ok 7), false, false⟩] }

/-- Thread 0 runs its work to completion, passes the authority check at line
142 and writes FINISHED, then the observer calls `cancel()` before the
finally's flag check. -/
def c2LabelsA : List Label :=
  [.spawn (.single (.ok 42)), .step 0, .step 0, .step 0, .step 0, .step 0,
   .step 0, .step 0, .setFlag 0]

def c2CfgA : Config :=
  { state := .FINISHED, value := some 42, error := none, pointer := some 0,
    threads := [⟨.cleanup, .single (.ok 42), true, false⟩] }

def c2CfgMid : Config :=
  { state := .FINISHED, value := some 42, error := none, pointer := none,
    threads := [⟨.setCancelled, .single (.ok 42), true, true⟩] }

def c2CfgA2 : Config :=
  { state := .CANCELLED, value := some 42, error := none, pointer := none,
    threads := [⟨.done, .single (.ok 42), true, true⟩] }

/-- Thread 1 waits behind thread 0; before its join returns, thread 2 takes
over the pointer, so thread 1 returns from line 108 — a return that never
executes the finally at line 154 (the ghost `cleaned` bit stays false). -/
def c2LabelsB : List Label :=
  [.spawn (.single (.ok 1)), .step 0, .setFlag 0,
   .spawn (.single (.ok 2)), .step 1, .step 1,
   .step 0, .step 0, .step 0, .step 0, .step 0, .step 0,
   .setFlag 1, .spawn (.single (.ok 3)), .step 2, .step 1, .step 1]

def c2CfgB : Config :=
  { state := .STARTING, value := some 1, error := none, pointer := some 2,
    threads := [⟨.done, .single (.ok 1), true, true⟩,
                ⟨.done, .single (.ok 2), true, false⟩,
                ⟨.setWaiting 1, .single (.ok 3), false, false⟩] }

/-- C1 counterexample: the claim fails on the code in two ways.  First, a
thread that no longer equals the authoritative thread pointer still performs
the unguarded result cell write `result.current = value` (line 140): after
`c1Labels`, thread 0 is at that write while the pointer already designates
thread 1, and its step writes the value anyway.  Second, even the guarded
FINISHED transition is not single-writer at the moment of writing: after
`c1tLabels`, thread 0 has passed the authority check at line 142 but the
pointer now designates thread 1, and thread 0's next step still writes
FINISHED. -/
theorem c1_single_writer_counterexample :
    (runB false initConfig c1Labels = some c1Cfg ∧
     c1Cfg.pointer = some 1 ∧
     c1Cfg.value = none ∧
     c1Cfg.threads[0]? = some ⟨.writeValue 42, .single (.ok 42), true, false⟩ ∧
     nextB false c1Cfg (.step 0) = some c1Cfg2 ∧
     c1Cfg2.value = some 42) ∧
    (runB false initConfig c1tLabels = some c1tCfg ∧
     c1tCfg.pointer = some 1 ∧
     c1tCfg.threads[0]? = some ⟨.setFinished, .single (.ok 42), true, false⟩ ∧
     c1tCfg.state ≠ .FINISHED ∧
     nextB false c1tCfg (.step 0) = some c1tCfg2 ∧
     c1tCfg2.state = .FINISHED) := by
  decide

/-- C2 counterexample: the claim fails on the code in two ways.  First, the
state does move from FINISHED to CANCELLED: after `c2LabelsA` the state is
FINISHED; three finally steps later thread 0 is at the CANCELLED write (the
pointer is already cleared), and that write turns FINISHED into CANCELLED.
Second, the cleanup does not execute exactly once for every thread: after
`c2LabelsB`, thread 1 has terminated (superseded while waiting, line 108)
without ever executing the finally (`cleaned = false`). -/
theorem c2_cancelled_counterexample :
    (runB false initConfig c2LabelsA = some c2CfgA ∧
     c2CfgA.state = .FINISHED ∧
     runB false c2CfgA [.step 0, .step 0, .step 0] = some c2CfgMid ∧
     c2CfgMid.state = .FINISHED ∧
     c2CfgMid.pointer = none ∧
     nextB false c2CfgMid (.step 0) = some c2CfgA2 ∧
     c2CfgA2.state = .CANCELLED) ∧
    (runB false initConfig c2LabelsB = some c2CfgB ∧
     c2CfgB.threads[1]? = some ⟨.done, .single (.ok 2), true, false⟩) := by
  decide

/-- C1 amended: the writes are guarded only by a preceding check, not at the
moment of writing.  Every transition of the task state into FINISHED, ERROR
or CANCELLED is performed by the dedicated write statement of some thread
(lines 138/143, 148, 159), and a thread reaches that write statement only by
having equalled the authoritative thread pointer at the corresponding check
one statement earlier (lines 137/142, 146, 158 after 155) — but it need no
longer equal the pointer at the moment of writing, and the result cell
writes and the WAITING/RUNNING transitions are not guarded at all (as the
counterexamples show). -/
theorem c1_guarded_transitions_amended :
    (∀ (intr : Bool) (c : Config) (l : Label) (c2 : Config),
      nextB intr c l = some c2 →
      (c2.state = .FINISHED ∨ c2.state = .ERROR ∨ c2.state = .CANCELLED) →
      c2.state ≠ c.state →
      ∃ t th, l = .step t ∧ c.threads[t]? = some th ∧
        ((c2.state = .FINISHED ∧ th.pc = .setFinished) ∨
         (c2.state = .ERROR ∧ th.pc = .setStateError) ∨
         (c2.state = .CANCELLED ∧ th.pc = .setCancelled))) ∧
    (∀ (intr : Bool) (c : Config) (l : Label) (c2 : Config) (t : Tid)
        (th th2 : ThreadSt),
      nextB intr c l = some c2 →
      c.threads[t]? = some th → c2.threads[t]? = some th2 →
      th.pc ≠ .setFinished → th2.pc = .setFinished →
      l = .step t ∧ (th.pc = .checkFinish ∨ th.pc = .genFinish) ∧
        c.pointer = some t) ∧
    (∀ (intr : Bool) (c : Config) (l : Label) (c2 : Config) (t : Tid)
        (th th2 : ThreadSt),
      nextB intr c l = some c2 →
      c.threads[t]? = some th → c2.threads[t]? = some th2 →
      th.pc ≠ .setStateError → th2.pc = .setStateError →
      l = .step t ∧ (∃ e, th.pc = .excCheck e) ∧ c.pointer = some t) ∧
    (∀ (intr : Bool) (c : Config) (l : Label) (c2 : Config) (t : Tid)
        (th th2 : ThreadSt),
      nextB intr c l = some c2 →
      c.threads[t]? = some th → c2.threads[t]? = some th2 →
      th.pc ≠ .setCancelled → th2.pc = .setCancelled →
      l = .step t ∧ th.pc = .checkFlag ∧ th.flag = true) := by
  refine ⟨state_write_pcs, ?_, ?_, ?_⟩
  · intro intr c l c2 t th th2 h hth hth2 hpcne hpc2
    have hne : th2.pc ≠ th.pc := by rw [hpc2]; exact fun hh => hpcne hh.symm
    rcases pc_change_label intr c l c2 t th th2 h hth hth2 hne with
      ⟨hl, hstep⟩ | ⟨hl, hcl⟩
    · subst hl
      obtain ⟨hcomp, -⟩ := stepThread_entry c t th th2 c2 hstep hth hth2
      exact ⟨rfl, hcomp hpc2⟩
    · rw [hcl] at hpc2
      exact absurd hpc2 (by simp)
  · intro intr c l c2 t th th2 h hth hth2 hpcne hpc2
    have hne : th2.pc ≠ th.pc := by rw [hpc2]; exact fun hh => hpcne hh.symm
    rcases pc_change_label intr c l c2 t th th2 h hth hth2 hne with
      ⟨hl, hstep⟩ | ⟨hl, hcl⟩
    · subst hl
      obtain ⟨-, hcomp, -⟩ := stepThread_entry c t th th2 c2 hstep hth hth2
      exact ⟨rfl, hcomp hpc2⟩
    · rw [hcl] at hpc2
      exact absurd hpc2 (by simp)
  · intro intr c l c2 t th th2 h hth hth2 hpcne hpc2
    have hne : th2.pc ≠ th.pc := by rw [hpc2]; exact fun hh => hpcne hh.symm
    rcases pc_change_label intr c l c2 t th th2 h hth hth2 hne with
      ⟨hl, hstep⟩ | ⟨hl, hcl⟩
    · subst hl
      obtain ⟨-, -, hcomp, -⟩ := stepThread_entry c t th th2 c2 hstep hth hth2
      exact ⟨rfl, hcomp hpc2⟩
    · rw [hcl] at hpc2
      exact absurd hpc2 (by simp)

/-- Witness configurations for the amended C1: a thread at the line-142
authority check, still authoritative, whose step moves it to the FINISHED
write. -/
def c1wCfg : Config :=
  { state := .RUNNING, value := some 42, error := none, pointer := some 0,
    threads := [⟨.checkFinish, .single (.ok 42), false, false⟩] }

def c1wCfg2 : Config :=
  { state := .RUNNING, value := some 42, error := none, pointer := some 0,
    threads := [⟨.setFinished, .single (.ok 42), false, false⟩] }

/-- Witness for C1 (amended): at a concrete configuration, the step that
moves a thread to the FINISHED write is its own check step taken while it
equals the pointer. -/
theorem c1_guarded_transitions_amended_witness :
    Label.step 0 = Label.step 0 ∧
      (Pc.checkFinish = Pc.checkFinish ∨ Pc.checkFinish = Pc.genFinish) ∧
      c1wCfg.pointer = some 0 :=
  c1_guarded_transitions_amended.2.1 false c1wCfg (.step 0) c1wCfg2 0
    ⟨.checkFinish, .single (.ok 42), false, false⟩
    ⟨.setFinished, .single (.ok 42), false, false⟩
    (by decide) (by decide) (by decide) (by decide) (by decide)

/-- C2 amended: every transition into CANCELLED is performed by the
dedicated write at line 159, which a thread reaches only through the finally
chain: the authority check at line 155 passed while it equalled the pointer,
the pointer clear at line 156, and the flag check at line 158 passed with
its cancellation flag set; the finally's first statement marks the thread as
having run its cleanup exactly then, the chain is terminal (`done` never
steps again and cannot be aborted), and a thread terminates only through the
finally's exits or through the superseded-while-waiting early return at line
108, which skips the cleanup.  Contrary to the original claim, CANCELLED can
be entered from FINISHED or ERROR — not only from RUNNING — and a
superseded-while-waiting thread terminates without executing the cleanup. -/
theorem c2_cancelled_cleanup_amended :
    (∀ (intr : Bool) (c : Config) (l : Label) (c2 : Config),
      nextB intr c l = some c2 →
      c2.state = .CANCELLED →
      c.state ≠ .CANCELLED →
      ∃ t th, l = .step t ∧ c.threads[t]? = some th ∧
        th.pc = .setCancelled) ∧
    (∀ (intr : Bool) (c : Config) (l : Label) (c2 : Config) (t : Tid)
        (th th2 : ThreadSt),
      nextB intr c l = some c2 →
      c.threads[t]? = some th → c2.threads[t]? = some th2 →
      th.pc ≠ .setCancelled → th2.pc = .setCancelled →
      l = .step t ∧ th.pc = .checkFlag ∧ th.flag = true) ∧
    (∀ (intr : Bool) (c : Config) (l : Label) (c2 : Config) (t : Tid)
        (th th2 : ThreadSt),
      nextB intr c l = some c2 →
      c.threads[t]? = some th → c2.threads[t]? = some th2 →
      th.pc ≠ .checkFlag → th2.pc = .checkFlag →
      l = .step t ∧ th.pc = .clearPtr) ∧
    (∀ (intr : Bool) (c : Config) (l : Label) (c2 : Config) (t : Tid)
        (th th2 : ThreadSt),
      nextB intr c l = some c2 →
      c.threads[t]? = some th → c2.threads[t]? = some th2 →
      th.pc ≠ .clearPtr → th2.pc = .clearPtr →
      l = .step t ∧ th.pc = .cleanup ∧ c.pointer = some t) ∧
    (∀ (intr : Bool) (c : Config) (t : Tid) (th : ThreadSt) (c2 : Config),
      nextB intr c (.step t) = some c2 →
      c.threads[t]? = some th →
      th.pc = .cleanup →
      c2.threads[t]? = some { th with
        pc := if c.pointer = some t then Pc.clearPtr else Pc.done,
        cleaned := true }) ∧
    (∀ (intr : Bool) (c : Config) (t : Tid) (th : ThreadSt),
      c.threads[t]? = some th →
      th.pc = .done →
      nextB intr c (.step t) = none ∧ nextB intr c (.abort t) = none) ∧
    (∀ (intr : Bool) (c : Config) (l : Label) (c2 : Config) (t : Tid)
        (th th2 : ThreadSt),
      nextB intr c l = some c2 →
      c.threads[t]? = some th → c2.threads[t]? = some th2 →
      th.pc ≠ .done → th2.pc = .done →
      l = .step t ∧ (th.pc = .checkAfter ∨ th.pc = .cleanup ∨
        th.pc = .checkFlag ∨ th.pc = .setCancelled)) := by
  refine ⟨?_, ?_, ?_, ?_, ?_, ?_, ?_⟩
  · -- entering CANCELLED happens only at the line-159 write
    intro intr c l c2 h hs hne
    have hne2 : c2.state ≠ c.state := by rw [hs]; exact fun hh => hne hh.symm
    obtain ⟨t, th, hl, hth, hdisj⟩ :=
      state_write_pcs intr c l c2 h (Or.inr (Or.inr hs)) hne2
    refine ⟨t, th, hl, hth, ?_⟩
    rcases hdisj with ⟨hx, -⟩ | ⟨hx, -⟩ | ⟨-, hpc⟩
    · rw [hs] at hx; exact absurd hx (by simp)
    · rw [hs] at hx; exact absurd hx (by simp)
    · exact hpc
  · -- the line-159 write is reached only via the flag check at line 158
    intro intr c l c2 t th th2 h hth hth2 hpcne hpc2
    have hne : th2.pc ≠ th.pc := by rw [hpc2]; exact fun hh => hpcne hh.symm
    rcases pc_change_label intr c l c2 t th th2 h hth hth2 hne with
      ⟨hl, hstep⟩ | ⟨hl, hcl⟩
    · subst hl
      obtain ⟨-, -, hcomp, -⟩ := stepThread_entry c t th th2 c2 hstep hth hth2
      exact ⟨rfl, hcomp hpc2⟩
    · rw [hcl] at hpc2
      exact absurd hpc2 (by simp)
  · -- the flag check is reached only via the pointer clear at line 156
    intro intr c l c2 t th th2 h hth hth2 hpcne hpc2
    have hne : th2.pc ≠ th.pc := by rw [hpc2]; exact fun hh => hpcne hh.symm
    rcases pc_change_label intr c l c2 t th th2 h hth hth2 hne with
      ⟨hl, hstep⟩ | ⟨hl, hcl⟩
    · subst hl
      obtain ⟨-, -, -, hcomp, -⟩ := stepThread_entry c t th th2 c2 hstep hth hth2
      exact ⟨rfl, hcomp hpc2⟩
    · rw [hcl] at hpc2
      exact absurd hpc2 (by simp)
  · -- the pointer clear is reached only via the authority check at line 155
    intro intr c l c2 t th th2 h hth hth2 hpcne hpc2
    have hne : th2.pc ≠ th.pc := by rw [hpc2]; exact fun hh => hpcne hh.symm
    rcases pc_change_label intr c l c2 t th th2 h hth hth2 hne with
      ⟨hl, hstep⟩ | ⟨hl, hcl⟩
    · subst hl
      obtain ⟨-, -, -, -, hcomp, -⟩ := stepThread_entry c t th th2 c2 hstep hth hth2
      exact ⟨rfl, hcomp hpc2⟩
    · rw [hcl] at hpc2
      exact absurd hpc2 (by simp)
  · -- the cleanup check marks the ghost bit and branches on authority
    intro intr c t th c2 h hth hpc
    simp only [nextB, hth] at h
    obtain ⟨pc, wk, fl, cl⟩ := th
    simp only at hpc
    subst hpc
    simp only [stepThread] at h
    have hlen : t < c.threads.length := (List.getElem?_eq_some.mp hth).1
    by_cases hp : c.pointer = some t
    · rw [if_pos hp] at h
      simp only [Option.some.injEq] at h
      subst h
      rw [if_pos hp]
      simp [setThread, List.getElem?_set, hlen]
    · rw [if_neg hp] at h
      simp only [Option.some.injEq] at h
      subst h
      rw [if_neg hp]
      simp [setThread, List.getElem?_set, hlen]
  · -- a terminated thread takes no further step and cannot be aborted
    intro intr c t th hth hpc
    obtain ⟨pc, wk, fl, cl⟩ := th
    simp only at hpc
    subst hpc
    constructor
    · simp [nextB, hth, stepThread]
    · simp [nextB, hth, guardedPc]
  · -- done is entered only from the finally's exits or the early return
    intro intr c l c2 t th th2 h hth hth2 hpcne hpc2
    have hne : th2.pc ≠ th.pc := by rw [hpc2]; exact fun hh => hpcne hh.symm
    rcases pc_change_label intr c l c2 t th th2 h hth hth2 hne with
      ⟨hl, hstep⟩ | ⟨hl, hcl⟩
    · subst hl
      obtain ⟨-, -, -, -, -, hcomp⟩ := stepThread_entry c t th th2 c2 hstep hth hth2
      exact ⟨rfl, hcomp hpc2⟩
    · rw [hcl] at hpc2
      exact absurd hpc2 (by simp)

/-- Witness configurations for the amended C2: a thread at the line-159
CANCELLED write (the finally chain passed), entering CANCELLED from
FINISHED. -/
def c2wCfg : Config :=
  { state := .FINISHED, value := some 5, error := none, pointer := none,
    threads := [⟨.setCancelled, .single (.ok 5), true, true⟩] }

def c2wCfg2 : Config :=
  { state := .CANCELLED, value := some 5, error := none, pointer := none,
    threads := [⟨.done, .single (.ok 5), true, true⟩] }

/-- Witness for C2 (amended): a concrete CANCELLED-entering step is the
line-159 write statement of a thread that traversed the finally chain. -/
theorem c2_cancelled_cleanup_amended_witness :
    ∃ t th, Label.step 0 = Label.step t ∧ c2wCfg.threads[t]? = some th ∧
      th.pc = .setCancelled :=
  c2_cancelled_cleanup_amended.1 false c2wCfg (.step 0) c2wCfg2
    (by decide) (by decide) (by decide)

/-- Helper: setting one element of a list preserves an `all` predicate when
the new element satisfies it. -/
theorem all_set_of_all {α : Type} (p : α → Bool) (l : List α) (n : Nat) (b : α)
    (hl : l.all p = true) (hb : p b = true) : (l.set n b).all p = true := by
  rw [List.all_eq_true] at *
  intro x hx
  rcases List.mem_or_eq_of_mem_set hx with h | h
  · exact hl x h
  · subst h; exact hb

/-- Helper: when every spawned thread has terminated, any non-spawn label
leaves the task state, value and error unchanged (and all threads stay
terminated): terminated threads take no steps and cannot be aborted, and
setting a cancel flag touches nothing else. -/
theorem allDone_preserved (intr : Bool) (c : Config) (l : Label) (c2 : Config)
    (hall : allDone c = true) (hns : noSpawn l = true)
    (h : nextB intr c l = some c2) :
    c2.state = c.state ∧ c2.value = c.value ∧ c2.error = c.error ∧
      allDone c2 = true := by
  cases l with
  | spawn w => simp [noSpawn] at hns
  | setFlag t =>
      simp only [nextB] at h
      cases hth : c.threads[t]? with
      | none => rw [hth] at h; exact absurd h (by simp)
      | some th =>
          rw [hth] at h
          simp only [Option.some.injEq] at h
          subst h
          refine ⟨rfl, rfl, rfl, ?_⟩
          have hmem : th ∈ c.threads := List.getElem?_mem hth
          have hpc : decide (th.pc = Pc.done) = true :=
            (List.all_eq_true.mp hall) th hmem
          exact all_set_of_all _ c.threads t _ hall hpc
  | step t =>
      simp only [nextB] at h
      cases hth : c.threads[t]? with
      | none => rw [hth] at h; exact absurd h (by simp)
      | some th =>
          rw [hth] at h
          have hmem : th ∈ c.threads := List.getElem?_mem hth
          have hpc : th.pc = Pc.done :=
            of_decide_eq_true ((List.all_eq_true.mp hall) th hmem)
          rw [show (match some th with
                | none => none
                | some th => stepThread c t th) = stepThread c t th from rfl] at h
          obtain ⟨pc, wk, fl, cl⟩ := th
          simp only at hpc
          subst hpc
          simp only [stepThread] at h
          exact absurd h (by simp)
  | abort t =>
      simp only [nextB] at h
      cases hth : c.threads[t]? with
      | none => rw [hth] at h; exact absurd h (by simp)
      | some th =>
          rw [hth] at h
          dsimp only at h
          have hmem : th ∈ c.threads := List.getElem?_mem hth
          have hpc : th.pc = Pc.done :=
            of_decide_eq_true ((List.all_eq_true.mp hall) th hmem)
          have hg : guardedPc th.pc = false := by rw [hpc]; rfl
          rw [hg] at h
          simp at h

/-- C3: cancel-after-finish is a no-op.  Once every spawned thread has
terminated with the state at FINISHED or ERROR, any sequence of further
actions that does not start a new `run()` — in particular any number of
`cancel()` flag sets — leaves the state, value and error unchanged. -/
theorem c3_cancel_after_finish_noop :
    ∀ (intr : Bool) (ll : List Label) (c c2 : Config),
      allDone c = true →
      ll.all noSpawn = true →
      (c.state = .FINISHED ∨ c.state = .ERROR) →
      runB intr c ll = some c2 →
      c2.state = c.state ∧ c2.value = c.value ∧ c2.error = c.error := by
  intro intr ll
  induction ll with
  | nil =>
      intro c c2 _ _ _ h
      simp only [runB, Option.some.injEq] at h
      subst h
      exact ⟨rfl, rfl, rfl⟩
  | cons l ls ih =>
      intro c c2 hall hns hstate h
      rw [List.all_cons, Bool.and_eq_true] at hns
      simp only [runB] at h
      cases hn : nextB intr c l with
      | none => rw [hn] at h; exact absurd h (by simp)
      | some c1 =>
          rw [hn] at h
          obtain ⟨h1, h2, h3, h4⟩ := allDone_preserved intr c l c1 hall hns.1 hn
          obtain ⟨g1, g2, g3⟩ := ih c1 c2 h4 hns.2 (by rw [h1]; exact hstate) h
          exact ⟨g1.trans h1, g2.trans h2, g3.trans h3⟩

/-- Witness configuration for C3: one terminated thread, state FINISHED. -/
def c3wCfg : Config :=
  { state := .FINISHED, value := some 42, error := none, pointer := none,
    threads := [⟨.done, .single (.ok 42), false, true⟩] }

def c3wCfg2 : Config :=
  { state := .FINISHED, value := some 42, error := none, pointer := none,
    threads := [⟨.done, .single (.ok 42), true, true⟩] }

/-- Witness for C3: a concrete `cancel()` after FINISHED changes none of
state, value, error. -/
theorem c3_cancel_after_finish_noop_witness :
    c3wCfg2.state = c3wCfg.state ∧ c3wCfg2.value = c3wCfg.value ∧
      c3wCfg2.error = c3wCfg.error :=
  c3_cancel_after_finish_noop false [.setFlag 0] c3wCfg c3wCfg2
    (by decide) (by decide) (Or.inl (by decide)) (by decide)

/-- C8: superseded-while-waiting silent exit.  A thread at the
post-join authority check (line 105) that no longer equals the authoritative
thread pointer terminates in one step without touching the state, value,
error or pointer (and without entering RUNNING), cannot be aborted there
(the check is not under `cancel_guard`), and once terminated it never takes
another step and can never be aborted. -/
theorem c8_superseded_while_waiting :
    ∀ (intr : Bool) (c : Config) (t : Tid) (th : ThreadSt) (c2 : Config),
      c.threads[t]? = some th →
      th.pc = .checkAfter →
      c.pointer ≠ some t →
      (nextB intr c (.step t) = some c2 →
        c2.state = c.state ∧ c2.value = c.value ∧ c2.error = c.error ∧
        c2.pointer = c.pointer ∧
        c2.threads[t]? = some { th with pc := .done }) ∧
      nextB intr c (.abort t) = none ∧
      (∀ (d : Config) (thd : ThreadSt), d.threads[t]? = some thd →
        thd.pc = .done →
        nextB intr d (.step t) = none ∧ nextB intr d (.abort t) = none) := by
  intro intr c t th c2 hth hpc hp
  have hlen : t < c.threads.length := (List.getElem?_eq_some.mp hth).1
  refine ⟨?_, ?_, ?_⟩
  · intro h
    simp only [nextB, hth] at h
    obtain ⟨pc, wk, fl, cl⟩ := th
    simp only at hpc
    subst hpc
    simp only [stepThread] at h
    rw [if_neg hp] at h
    simp only [Option.some.injEq] at h
    subst h
    refine ⟨rfl, rfl, rfl, rfl, ?_⟩
    simp [setThread, List.getElem?_set, hlen]
  · simp only [nextB, hth]
    rw [show guardedPc th.pc = false from by rw [hpc]; rfl]
    simp
  · intro d thd hthd hpcd
    obtain ⟨pc, wk, fl, cl⟩ := thd
    simp only at hpcd
    subst hpcd
    constructor
    · simp [nextB, hthd, stepThread]
    · simp [nextB, hthd, guardedPc]

/-- Witness configuration for C8: thread 1 waited behind thread 0, thread 2
has taken over the pointer. -/
def c8wCfg : Config :=
  { state := .WAITING, value := none, error := none, pointer := some 2,
    threads := [⟨.done, .single (.ok 1), true, true⟩,
                ⟨.checkAfter, .single (.ok 2), true, false⟩,
                ⟨.prologue, .single (.ok 3), false, false⟩] }

def c8wCfg2 : Config :=
  { state := .WAITING, value := none, error := none, pointer := some 2,
    threads := [⟨.done, .single (.ok 1), true, true⟩,
                ⟨.done, .single (.ok 2), true, false⟩,
                ⟨.prologue, .single (.ok 3), false, false⟩] }

/-- Witness for C8: the concrete superseded thread's only step terminates it
and leaves every shared cell unchanged. -/
theorem c8_superseded_while_waiting_witness :
    c8wCfg2.state = c8wCfg.state ∧ c8wCfg2.value = c8wCfg.value ∧
      c8wCfg2.error = c8wCfg.error ∧ c8wCfg2.pointer = c8wCfg.pointer ∧
      c8wCfg2.threads[1]? = some ⟨.done, .single (.ok 2), true, false⟩ :=
  (c8_superseded_while_waiting false c8wCfg 1 ⟨.checkAfter, .single (.ok 2), true, false⟩
      c8wCfg2 (by decide) (by decide) (by decide)).1 (by decide)

end SolaraUseThread
